import Mathlib

/-!
# Verification of the multiplayer race-room server

Shallow embedding of the authoritative multiplayer server of
"Blocky's Big Adventure" (server/GamePlayer.js, server/GameRoom.js,
server/GameState.js, server/index.js).  The room logic is embedded from
the evolved `GameRoom` (the version with skin support and the enlarged
attack hitbox); its match logic (join, countdown, forfeit, finish,
attack resolution) is line-for-line the same as server/GameRoom.js, only
the attack constants differ.

Conventions of the embedding:
* JavaScript floating point positions / vectors are modelled as `Rat`
  (every constant in the source is a short decimal, exactly
  representable).
* Timestamps (`Date.now()`, finish times) are `Nat` milliseconds.
* A socket is identified by its id string; socket-side bookkeeping
  (`socket.join`, `socket.roomId`) lives in the gateway and is not part
  of the room state.
* `this.players` is a JavaScript `Map`, i.e. an insertion-ordered
  association list with unique keys; `Map.set` on an existing key
  updates in place, on a fresh key appends; `values().next().value` is
  the head of the insertion order.
* Every emitted socket message becomes a `GEvent`; an operation returns
  the successor room state together with the list of events it emitted,
  in emission order.  Event payload fields are restricted to the fields
  the properties below inspect (ids, numbers, times, vectors, reasons);
  `console.log` calls and the `velocityY` / opaque `state` passthrough
  fields are not observable here.
-/

/-- The four values of `this.state` in GameRoom:
`'waiting'`, `'countdown'`, `'racing'`, `'finished'`. -/
inductive RState where
  | waiting
  | countdown
  | racing
  | finished
deriving DecidableEq, Repr

/-- Player record, from the `GamePlayer` constructor.  `lastHitTime` is
`none` at construction: the constructor in server/GamePlayer.js never
initialises `this.lastHitTime`, so the field is `undefined` until the
first hit stamps it (see `withinCooldown` for the arithmetic on the
absent value).  The `skinId` field is carried for the skin-aware room.
Modelled from the spec: the skin-aware `GamePlayer` constructor storing
the third argument is not among the sources; per the spec, `skinId` is
"a cosmetic identifier string, defaults to a canonical skin", and the
room passes its `skinId` argument through to the constructor. -/
structure GamePlayer where
  id : String
  playerNumber : Nat
  x : Rat
  y : Rat
  finished : Bool
  finishTime : Option Nat
  lastHitTime : Option Nat
  skinId : String
deriving DecidableEq, Repr

/-- Constructor `new GamePlayer(socket, playerNumber, skinId)`:
spawn x is -2 for player 1 and +2 otherwise, y is 0. -/
def GamePlayer.make (sockId : String) (playerNumber : Nat) (skin : String) : GamePlayer :=
  { id := sockId
    playerNumber := playerNumber
    x := if playerNumber = 1 then -2 else 2
    y := 0
    finished := false
    finishTime := none
    lastHitTime := none
    skinId := skin }

/-- Insertion-ordered association list standing for the JavaScript `Map`
from socket id to `GamePlayer`. -/
abbrev PMap := List (String × GamePlayer)

/-- The JavaScript `Map.prototype.get`. -/
def mapGet (m : PMap) (k : String) : Option GamePlayer :=
  (m.find? (fun kv => kv.1 = k)).map (fun kv => kv.2)

/-- The JavaScript `Map.prototype.set`: update in place when the key is present,
append otherwise. -/
def mapSet (m : PMap) (k : String) (v : GamePlayer) : PMap :=
  if m.any (fun kv => kv.1 = k) then
    m.map (fun kv => if kv.1 = k then (k, v) else kv)
  else
    m ++ [(k, v)]

/-- The JavaScript `Map.prototype.delete` (keys are unique, so filtering is removal of
the one entry). -/
def mapDelete (m : PMap) (k : String) : PMap :=
  m.filter (fun kv => kv.1 ≠ k)

/-- Apply `f` to the record stored under `k`, the embedding of the
JavaScript in-place mutation of a looked-up player object. -/
def mapAdjust (m : PMap) (k : String) (f : GamePlayer → GamePlayer) : PMap :=
  m.map (fun kv => if kv.1 = k then (kv.1, f kv.2) else kv)

/-- One emitted socket message.  `knockback` is a unicast to the
connection named by its first field (`player.socket.emit`); `countdown`,
`raceStart`, `gameOver`, `playerLeft`, `playerHit` and
`playerSkinChanged` are room broadcasts (`io.to(roomId).emit`);
`playerJoined` goes to the room except the joiner
(`socket.to(roomId).emit`) and `playerPosition` to the room except the
mover. -/
inductive GEvent where
  | playerJoined (id : String)
  | playerLeft (id : String)
  | playerPosition (id : String) (x y : Rat)
  | countdown (count : Nat)
  | raceStart (timestamp : Nat)
  | gameOver (winnerId : String) (winnerNumber : Nat) (winnerTime : Option Nat) (reason : String)
  | knockback (target : String) (kx ky : Rat) (attackerId : String)
  | playerHit (hitPlayerId : String) (attackerId : String) (dx dy : Rat)
  | playerSkinChanged (id : String) (skinId : String)
deriving DecidableEq, Repr

/-- Room state: `id`, the player map, the state string, the countdown
interval (modelled as `some c` where `c` is the closure's current
`count` while the interval is scheduled, `none` once cleared or never
started) and `winnerId`. -/
structure GameRoom where
  id : String
  players : PMap
  state : RState
  countdownInterval : Option Nat
  winnerId : Option String
deriving DecidableEq, Repr

/-- Constructor `new GameRoom(id, io)`. -/
def GameRoom.new (id : String) : GameRoom :=
  { id := id
    players := []
    state := RState.waiting
    countdownInterval := none
    winnerId := none }

-- Attack/Knockback constants of the evolved GameRoom.
/-- How far the attack hitbox center is offset from the player. -/
def ATTACK_OFFSET : Rat := 1
/-- Width of the attack hitbox. -/
def ATTACK_WIDTH : Rat := 1.6
/-- Height of the attack hitbox. -/
def ATTACK_HEIGHT : Rat := 2
/-- Horizontal knockback force. -/
def KNOCKBACK_X : Rat := 12
/-- Vertical knockback force. -/
def KNOCKBACK_Y : Rat := 15
/-- Milliseconds before a player can be hit again. -/
def HIT_COOLDOWN : Int := 500

/-- Method `startCountdown()`: set state to countdown, emit the initial
`countdown {count: 3}` and schedule the interval with the closure
variable `count = 3`. -/
def GameRoom.startCountdown (r : GameRoom) : GameRoom × List GEvent :=
  ({ r with state := RState.countdown, countdownInterval := some 3 },
   [GEvent.countdown 3])

/-- One firing of the countdown `setInterval` callback (the server
schedules it once per second).  After `clearInterval` — modelled by
`countdownInterval = none` — the callback never fires again, hence the
no-op branch.  The callback decrements `count`, re-broadcasts while it
is positive, and otherwise clears the interval, moves to racing and
broadcasts `raceStart` with the server timestamp. -/
def GameRoom.tick (r : GameRoom) (now : Nat) : GameRoom × List GEvent :=
  match r.countdownInterval with
  | none => (r, [])
  | some c =>
    let c' := c - 1
    if 0 < c' then
      ({ r with countdownInterval := some c' }, [GEvent.countdown c'])
    else
      ({ r with countdownInterval := none, state := RState.racing },
       [GEvent.raceStart now])

/-- Method `addPlayer(socket, skinId)`: number the player by join order, build
the record, insert it, notify the rest of the room, and once two
players are present start the countdown.  (The join-result payload
returned to the caller duplicates fields of the state and is not needed
by any property below.) -/
def GameRoom.addPlayer (r : GameRoom) (sockId : String) (skin : String) :
    GameRoom × List GEvent :=
  let playerNumber := r.players.length + 1
  let player := GamePlayer.make sockId playerNumber skin
  let players1 := mapSet r.players sockId player
  let r1 := { r with players := players1 }
  if players1.length = 2 then
    let s := r1.startCountdown
    (s.1, GEvent.playerJoined sockId :: s.2)
  else
    (r1, [GEvent.playerJoined sockId])

/-- The canonical default skin: the default value of `addPlayer`'s
`skinId` parameter. -/
def defaultSkin : String := "player"

/-- A join request that carries no skin selection: `addPlayer` runs with
its default parameter. -/
def GameRoom.addPlayerNoSkin (r : GameRoom) (sockId : String) : GameRoom × List GEvent :=
  r.addPlayer sockId defaultSkin

/-- Method `updatePlayerSkin(socketId, skinId)`: overwrite the record's skin
and broadcast the change; no-op when the record is absent.  There is no
state gate. -/
def GameRoom.updatePlayerSkin (r : GameRoom) (sid : String) (skin : String) :
    GameRoom × List GEvent :=
  match mapGet r.players sid with
  | none => (r, [])
  | some _ =>
    ({ r with players := mapAdjust r.players sid (fun p => { p with skinId := skin }) },
     [GEvent.playerSkinChanged sid skin])

/-- Method `removePlayer(socketId)`: early `false` when the record is absent;
otherwise delete it, and if the game was in progress clear the
countdown, declare the head of the remaining map winner by forfeit
(when one exists) and move to finished; always broadcast `playerLeft`;
renumber the remaining players when still waiting; report whether the
room is now empty. -/
def GameRoom.removePlayer (r : GameRoom) (sid : String) :
    GameRoom × List GEvent × Bool :=
  match mapGet r.players sid with
  | none => (r, [], false)
  | some _ =>
    let players1 := mapDelete r.players sid
    let r1 := { r with players := players1 }
    let step :=
      if r1.state = RState.racing ∨ r1.state = RState.countdown then
        let r2 := { r1 with countdownInterval := none }
        match players1.head? with
        | some kv =>
          ({ r2 with state := RState.finished, winnerId := some kv.2.id },
           [GEvent.gameOver kv.2.id kv.2.playerNumber none "opponent_disconnected"])
        | none => (r2, ([] : List GEvent))
      else (r1, ([] : List GEvent))
    let r3 := step.1
    let evs := step.2 ++ [GEvent.playerLeft sid]
    let r4 :=
      if r3.state = RState.waiting then
        { r3 with players :=
            r3.players.map (fun kv => (kv.1, { kv.2 with playerNumber := 1, x := -2 })) }
      else r3
    (r4, evs, r4.players.isEmpty)

/-- Method `updatePosition(socketId, data)`: no-op when absent, otherwise
overwrite the position and broadcast it to the other connections. -/
def GameRoom.updatePosition (r : GameRoom) (sid : String) (px py : Rat) :
    GameRoom × List GEvent :=
  match mapGet r.players sid with
  | none => (r, [])
  | some _ =>
    ({ r with players := mapAdjust r.players sid (fun p => { p with x := px, y := py }) },
     [GEvent.playerPosition sid px py])

/-- Method `playerReachedTop(socketId, time)`: gated on `racing` and on the
record being present; marks the player finished, fixes the winner and
broadcasts the game-over. -/
def GameRoom.playerReachedTop (r : GameRoom) (sid : String) (time : Nat) :
    GameRoom × List GEvent :=
  if r.state = RState.racing then
    match mapGet r.players sid with
    | none => (r, [])
    | some p =>
      ({ r with
          players := mapAdjust r.players sid
            (fun q => { q with finished := true, finishTime := some time })
          state := RState.finished
          winnerId := some sid },
       [GEvent.gameOver sid p.playerNumber (some time) "reached_top"])
  else (r, [])

/-- Method `isFull()`. -/
def GameRoom.isFull (r : GameRoom) : Bool :=
  decide (2 ≤ r.players.length)

/-- Method `isEmpty()` of the room. -/
def GameRoom.roomIsEmpty (r : GameRoom) : Bool :=
  r.players.isEmpty

/-- Method `isAvailable()`: waiting and not full. -/
def GameRoom.isAvailable (r : GameRoom) : Bool :=
  decide (r.state = RState.waiting) && !r.isFull

/-- The cooldown test `currentTime - player.lastHitTime < HIT_COOLDOWN`.
While `lastHitTime` is still `undefined` the JavaScript subtraction
yields `NaN` and every comparison on `NaN` is false, so the test never
suppresses a first hit; once stamped it is ordinary integer
arithmetic. -/
def withinCooldown (lastHit : Option Nat) (now : Nat) : Bool :=
  match lastHit with
  | none => false
  | some t => decide ((now : Int) - (t : Int) < HIT_COOLDOWN)

/-- The AABB overlap test of `handleAttack` against the victim's body
box (half-width 0.4, half-height 0.7) for the attack box centered at
`(cx, cy)` (half-width `ATTACK_WIDTH / 2`, half-height
`ATTACK_HEIGHT / 2`). -/
def hitTest (cx cy : Rat) (p : GamePlayer) : Bool :=
  let playerLeft := p.x - 0.4
  let playerRight := p.x + 0.4
  let playerBottom := p.y - 0.7
  let playerTop := p.y + 0.7
  let attackLeft := cx - ATTACK_WIDTH / 2
  let attackRight := cx + ATTACK_WIDTH / 2
  let attackBottom := cy - ATTACK_HEIGHT / 2
  let attackTop := cy + ATTACK_HEIGHT / 2
  decide (attackRight > playerLeft ∧ attackLeft < playerRight ∧
          attackBottom < playerTop ∧ attackTop > playerBottom)

/-- The knockback vector of `handleAttack`: the code sets
`knockbackY = KNOCKBACK_Y` and then branches — horizontal attack pushes
in the attack direction, upward attack pushes strongly up and half-force
away from the attacker's side, downward attack pushes down and the same
half-force away. -/
def knockbackVec (attacker victim : GamePlayer) (dx dy : Rat) : Rat × Rat :=
  if dx ≠ 0 then
    (dx * KNOCKBACK_X, KNOCKBACK_Y)
  else if dy > 0 then
    ((if victim.x > attacker.x then 1 else -1) * (KNOCKBACK_X * 0.5), KNOCKBACK_Y * 1.5)
  else
    ((if victim.x > attacker.x then 1 else -1) * (KNOCKBACK_X * 0.5), -KNOCKBACK_Y * 0.5)

/-- Body of the `for (const [playerId, player] of this.players)` loop of
`handleAttack`, folded over the map: skip the attacker, skip a victim
inside the hit cooldown, and on hitbox overlap stamp `lastHitTime`,
unicast `knockback` to the victim and broadcast `playerHit`. -/
def attackStep (attackerId : String) (attacker : GamePlayer) (cx cy dx dy : Rat)
    (now : Nat) (acc : PMap × List GEvent) (kv : String × GamePlayer) :
    PMap × List GEvent :=
  if kv.1 = attackerId then (acc.1 ++ [kv], acc.2)
  else if withinCooldown kv.2.lastHitTime now then (acc.1 ++ [kv], acc.2)
  else if hitTest cx cy kv.2 then
    let kb := knockbackVec attacker kv.2 dx dy
    (acc.1 ++ [(kv.1, { kv.2 with lastHitTime := some now })],
     acc.2 ++ [GEvent.knockback kv.1 kb.1 kb.2 attackerId,
               GEvent.playerHit kv.2.id attackerId dx dy])
  else (acc.1 ++ [kv], acc.2)

/-- Method `handleAttack(attackerId, data)`: gated on `racing` and the attacker
being present; the attack box center is offset from the reported
position by `ATTACK_OFFSET` along the single non-zero direction axis;
each other player is tested by `attackStep`. -/
def GameRoom.handleAttack (r : GameRoom) (attackerId : String) (ax ay dx dy : Rat)
    (now : Nat) : GameRoom × List GEvent :=
  if r.state = RState.racing then
    match mapGet r.players attackerId with
    | none => (r, [])
    | some attacker =>
      let cx := if dx ≠ 0 then ax + dx * ATTACK_OFFSET else ax
      let cy := if dx ≠ 0 then ay else ay + dy * ATTACK_OFFSET
      let res := r.players.foldl (attackStep attackerId attacker cx cy dx dy now) ([], [])
      ({ r with players := res.1 }, res.2)
  else (r, [])

/-!
## The gateway

server/index.js maps each inbound socket message to one room call.  A
join request goes through `GameState.findOrCreateRoom`, which returns a
room only when `isAvailable()` holds for it, so per room the gateway
invokes `addPlayer` only on an available room; each other message is
dispatched to the sender's room unconditionally (the room methods carry
their own guards).  `Op.tick` stands for a scheduled firing of the
room's countdown interval callback.
-/

/-- One gateway-driven operation on a single room. -/
inductive Op where
  | join (sockId : String) (skin : String)
  | leave (sid : String)
  | move (sid : String) (px py : Rat)
  | top (sid : String) (time : Nat)
  | attack (sid : String) (ax ay dx dy : Rat) (now : Nat)
  | setSkin (sid : String) (skin : String)
  | tick (now : Nat)
deriving DecidableEq, Repr

/-- Dispatch of one operation to the corresponding room method
(dropping `removePlayer`'s emptiness result, which the gateway uses only
for registry eviction). -/
def applyOp (r : GameRoom) : Op → GameRoom × List GEvent
  | Op.join sockId skin => r.addPlayer sockId skin
  | Op.leave sid => ((r.removePlayer sid).1, (r.removePlayer sid).2.1)
  | Op.move sid px py => r.updatePosition sid px py
  | Op.top sid time => r.playerReachedTop sid time
  | Op.attack sid ax ay dx dy now => r.handleAttack sid ax ay dx dy now
  | Op.setSkin sid skin => r.updatePlayerSkin sid skin
  | Op.tick now => r.tick now

/-- Whether the gateway routes the operation to this room: a join
reaches a room only when `findOrCreateRoom` selected it, i.e. only when
`isAvailable()`; every other message for the room is dispatched. -/
def gatewayOk (r : GameRoom) : Op → Bool
  | Op.join _ _ => r.isAvailable
  | _ => true

/-- One gateway step against this room: an operation the gateway would
not route here (a join while the room is unavailable — `findOrCreateRoom`
sends that join elsewhere) leaves the room untouched. -/
def stepG (r : GameRoom) (op : Op) : GameRoom × List GEvent :=
  if gatewayOk r op then applyOp r op else (r, [])

/-- Run a sequence of gateway-driven operations, collecting the emitted
events in order. -/
def runG : GameRoom → List Op → GameRoom × List GEvent
  | r, [] => (r, [])
  | r, op :: ops =>
    let s := stepG r op
    let t := runG s.1 ops
    (t.1, s.2 ++ t.2)

/-- Count of `gameOver` events in an emission trace. -/
def countGameOver (evs : List GEvent) : Nat :=
  evs.countP (fun e =>
    match e with
    | GEvent.gameOver _ _ _ _ => true
    | _ => false)

/-- Count of `raceStart` events in an emission trace. -/
def countRaceStart (evs : List GEvent) : Nat :=
  evs.countP (fun e =>
    match e with
    | GEvent.raceStart _ => true
    | _ => false)

/-- Count of `countdown` events in an emission trace. -/
def countCountdown (evs : List GEvent) : Nat :=
  evs.countP (fun e =>
    match e with
    | GEvent.countdown _ => true
    | _ => false)

/-!
## Helper lemmas about the player map
-/

theorem mapGet_set_self (m : PMap) (k : String) (v : GamePlayer) :
    mapGet (mapSet m k v) k = some v := by
  induction m with
  | nil => simp [mapSet, mapGet]
  | cons kv rest ih =>
    by_cases hk : kv.1 = k
    · simp [mapSet, mapGet, hk]
    · by_cases ha : rest.any (fun kv => kv.1 = k)
      · have h1 : mapSet (kv :: rest) k v = kv :: mapSet rest k v := by
          simp [mapSet, hk, ha]
        rw [h1]
        simpa [mapGet, hk] using ih
      · have h1 : mapSet (kv :: rest) k v = kv :: mapSet rest k v := by
          simp [mapSet, hk, ha]
        rw [h1]
        simpa [mapGet, hk] using ih

theorem mapGet_adjust_self (m : PMap) (k : String) (f : GamePlayer → GamePlayer) :
    mapGet (mapAdjust m k f) k = (mapGet m k).map f := by
  induction m with
  | nil => simp [mapAdjust, mapGet]
  | cons kv rest ih =>
    by_cases hk : kv.1 = k
    · simp [mapAdjust, mapGet, hk]
    · simpa [mapAdjust, mapGet, hk] using ih

theorem mapSet_length_le (m : PMap) (k : String) (v : GamePlayer) :
    (mapSet m k v).length ≤ m.length + 1 := by
  unfold mapSet
  by_cases h : m.any (fun kv => kv.1 = k) <;> simp [h]

theorem mapAdjust_length (m : PMap) (k : String) (f : GamePlayer → GamePlayer) :
    (mapAdjust m k f).length = m.length := by
  simp [mapAdjust]

theorem mapDelete_length_le (m : PMap) (k : String) :
    (mapDelete m k).length ≤ m.length :=
  List.length_filter_le _ _

/-!
## Helper lemmas about `handleAttack`
-/

/-- The per-event self-immunity property: a `knockback` never targets
the attacking connection and a `playerHit` never names the attacker as
the hit player. -/
def notSelf (aid : String) : GEvent → Prop
  | GEvent.knockback tgt _ _ _ => tgt ≠ aid
  | GEvent.playerHit hid _ _ _ => hid ≠ aid
  | _ => True

theorem attackStep_length (aid : String) (att : GamePlayer) (cx cy dx dy : Rat)
    (now : Nat) (acc : PMap × List GEvent) (kv : String × GamePlayer) :
    ((attackStep aid att cx cy dx dy now acc kv).1).length = acc.1.length + 1 := by
  unfold attackStep
  split_ifs <;> simp

theorem attackStep_foldl_length (aid : String) (att : GamePlayer) (cx cy dx dy : Rat)
    (now : Nat) (l : PMap) :
    ∀ acc : PMap × List GEvent,
      ((l.foldl (attackStep aid att cx cy dx dy now) acc).1).length
        = acc.1.length + l.length := by
  induction l with
  | nil => intro acc; simp
  | cons kv rest ih =>
    intro acc
    rw [List.foldl_cons, ih, attackStep_length]
    simp only [List.length_cons]
    omega

theorem attackStep_foldl_noself (aid : String) (att : GamePlayer) (cx cy dx dy : Rat)
    (now : Nat) (l : PMap) (hwf : ∀ kv ∈ l, (kv.2).id = kv.1) :
    ∀ acc : PMap × List GEvent,
      (∀ e ∈ acc.2, notSelf aid e) →
      ∀ e ∈ (l.foldl (attackStep aid att cx cy dx dy now) acc).2, notSelf aid e := by
  induction l with
  | nil => intro acc hacc; simpa using hacc
  | cons kv rest ih =>
    intro acc hacc
    rw [List.foldl_cons]
    refine ih (fun kv' h => hwf kv' (List.mem_cons_of_mem _ h)) _ ?_
    intro e he
    unfold attackStep at he
    split_ifs at he with h1 h2 h3
    · exact hacc e he
    · exact hacc e he
    · simp only [List.mem_append, List.mem_cons, List.mem_singleton] at he
      rcases he with he | he | he
      · exact hacc e he
      · subst he
        simpa [notSelf] using h1
      · simp only [List.not_mem_nil, or_false] at he
        subst he
        have : (kv.2).id = kv.1 := hwf kv (List.mem_cons_self _ _)
        simpa [notSelf, this] using h1
    · exact hacc e he

/-- Running `handleAttack` on a two-player room (attacker listed first) whose
victim is outside the cooldown window and inside the hitbox: the
victim's `lastHitTime` is stamped and exactly the knockback / playerHit
pair is emitted.  (The hitbox-center hypothesis spells out the
`direction.x` branch of the source with the `dx = 0` case first.) -/
theorem handleAttack_two_hit (r : GameRoom) (aid vid : String) (pa pv : GamePlayer)
    (ax ay dx dy : Rat) (now : Nat)
    (hp : r.players = [(aid, pa), (vid, pv)]) (hne : vid ≠ aid)
    (hs : r.state = RState.racing)
    (hcool : withinCooldown pv.lastHitTime now = false)
    (hhit : hitTest (if dx = 0 then ax else ax + dx * ATTACK_OFFSET)
                    (if dx = 0 then ay + dy * ATTACK_OFFSET else ay) pv = true) :
    r.handleAttack aid ax ay dx dy now =
      ({ r with players := [(aid, pa), (vid, { pv with lastHitTime := some now })] },
       [GEvent.knockback vid (knockbackVec pa pv dx dy).1 (knockbackVec pa pv dx dy).2 aid,
        GEvent.playerHit pv.id aid dx dy]) := by
  simp [GameRoom.handleAttack, hs, hp, mapGet, attackStep, hne, hcool, hhit]

/-- Running `handleAttack` on a two-player room whose victim is still inside the
cooldown window: no event is emitted and the room is unchanged. -/
theorem handleAttack_two_cooldown (r : GameRoom) (aid vid : String) (pa pv : GamePlayer)
    (ax ay dx dy : Rat) (now : Nat)
    (hp : r.players = [(aid, pa), (vid, pv)]) (hne : vid ≠ aid)
    (hs : r.state = RState.racing)
    (hcool : withinCooldown pv.lastHitTime now = true) :
    r.handleAttack aid ax ay dx dy now = (r, []) := by
  simp [GameRoom.handleAttack, hs, hp, mapGet, attackStep, hne, hcool]
  rw [← hp, ← hs]

/-- Running `handleAttack` on a two-player room listing the victim first
(the attacker joined second): same result as `handleAttack_two_hit` up
to the preserved insertion order of the map. -/
theorem handleAttack_two_hit_vfirst (r : GameRoom) (aid vid : String) (pa pv : GamePlayer)
    (ax ay dx dy : Rat) (now : Nat)
    (hp : r.players = [(vid, pv), (aid, pa)]) (hne : vid ≠ aid)
    (hs : r.state = RState.racing)
    (hcool : withinCooldown pv.lastHitTime now = false)
    (hhit : hitTest (if dx = 0 then ax else ax + dx * ATTACK_OFFSET)
                    (if dx = 0 then ay + dy * ATTACK_OFFSET else ay) pv = true) :
    r.handleAttack aid ax ay dx dy now =
      ({ r with players := [(vid, { pv with lastHitTime := some now }), (aid, pa)] },
       [GEvent.knockback vid (knockbackVec pa pv dx dy).1 (knockbackVec pa pv dx dy).2 aid,
        GEvent.playerHit pv.id aid dx dy]) := by
  simp [GameRoom.handleAttack, hs, hp, mapGet, attackStep, hne, hcool, hhit]

/-- Running `handleAttack` on a victim-first two-player room whose victim
is still inside the cooldown window: no event, room unchanged. -/
theorem handleAttack_two_cooldown_vfirst (r : GameRoom) (aid vid : String)
    (pa pv : GamePlayer) (ax ay dx dy : Rat) (now : Nat)
    (hp : r.players = [(vid, pv), (aid, pa)]) (hne : vid ≠ aid)
    (hs : r.state = RState.racing)
    (hcool : withinCooldown pv.lastHitTime now = true) :
    r.handleAttack aid ax ay dx dy now = (r, []) := by
  simp [GameRoom.handleAttack, hs, hp, mapGet, attackStep, hne, hcool]
  rw [← hp, ← hs]

/-!
## The claims
-/

/-- C1: removing one player of a 2-player room in state racing or
countdown broadcasts exactly one gameOver naming the remaining player
(id and number) with reason opponent_disconnected, cancels the countdown
interval so that no further tick fires, and leaves the room finished
with the remaining player as winner. -/
theorem removePlayer_forfeit_spec (r : GameRoom) (a b cid : String)
    (pa pb : GamePlayer) (n : Nat)
    (hp : r.players = [(a, pa), (b, pb)]) (hab : a ≠ b)
    (hs : r.state = RState.racing ∨ r.state = RState.countdown)
    (hcid : cid = a ∨ cid = b) :
    (r.removePlayer cid).2.1 =
      [GEvent.gameOver (if cid = a then pb else pa).id
         (if cid = a then pb else pa).playerNumber none "opponent_disconnected",
       GEvent.playerLeft cid]
    ∧ countGameOver (r.removePlayer cid).2.1 = 1
    ∧ (r.removePlayer cid).1.state = RState.finished
    ∧ (r.removePlayer cid).1.winnerId = some (if cid = a then pb else pa).id
    ∧ (r.removePlayer cid).1.countdownInterval = none
    ∧ (r.removePlayer cid).1.tick n = ((r.removePlayer cid).1, []) := by
  have hba : b ≠ a := fun h => hab h.symm
  rcases hcid with rfl | rfl
  · simp [GameRoom.removePlayer, mapGet, mapDelete, hp, hba, hab, hs,
      countGameOver, GameRoom.tick]
  · simp [GameRoom.removePlayer, mapGet, mapDelete, hp, hba, hab, hs,
      countGameOver, GameRoom.tick]

/-- A concrete two-player room in the racing state, used to witness the
theorems below at an explicit input. -/
def paW : GamePlayer := GamePlayer.make "a" 1 "player"

/-- Second concrete player (see `paW`). -/
def pbW : GamePlayer := GamePlayer.make "b" 2 "player"

/-- Concrete racing room holding `paW` and `pbW`. -/
def racingRoomW : GameRoom :=
  { id := "w"
    players := [("a", paW), ("b", pbW)]
    state := RState.racing
    countdownInterval := none
    winnerId := none }

/-- Witness for the forfeit property at a concrete racing room. -/
theorem removePlayer_forfeit_spec_witness :
    (racingRoomW.removePlayer "a").2.1 =
      [GEvent.gameOver "b" 2 none "opponent_disconnected", GEvent.playerLeft "a"]
    ∧ (racingRoomW.removePlayer "a").1.state = RState.finished := by
  have h := removePlayer_forfeit_spec racingRoomW "a" "b" "a" paW pbW 5
    rfl (by decide) (Or.inl rfl) (Or.inl rfl)
  exact ⟨by simpa [paW, pbW] using h.1, h.2.2.1⟩

/-- C2: `playerReachedTop` emits a game-over exactly when the room is
racing and the record is present; then it emits exactly the one
`gameOver {winnerId, winnerNumber, winnerTime, reason: reached_top}`,
marks the player finished with the reported time and fixes state and
winner; in every other case (a second call on a finished room included)
it emits nothing and changes nothing. -/
theorem playerReachedTop_spec (r : GameRoom) (cid : String) (t : Nat) :
    (∀ p, r.state = RState.racing → mapGet r.players cid = some p →
      r.playerReachedTop cid t =
        ({ r with
            players := mapAdjust r.players cid
              (fun q => { q with finished := true, finishTime := some t })
            state := RState.finished
            winnerId := some cid },
         [GEvent.gameOver cid p.playerNumber (some t) "reached_top"])
      ∧ mapGet (r.playerReachedTop cid t).1.players cid =
          some { p with finished := true, finishTime := some t })
    ∧ ((r.state ≠ RState.racing ∨ mapGet r.players cid = none) →
        r.playerReachedTop cid t = (r, [])) := by
  constructor
  · intro p hs hget
    constructor
    · simp [GameRoom.playerReachedTop, hs, hget]
    · simp [GameRoom.playerReachedTop, hs, hget, mapGet_adjust_self]
  · intro h
    rcases h with h | h
    · simp [GameRoom.playerReachedTop, h]
    · by_cases hs : r.state = RState.racing
      · simp [GameRoom.playerReachedTop, hs, h]
      · simp [GameRoom.playerReachedTop, hs]

/-- Witness for `playerReachedTop_spec` at a concrete racing room and a
concrete finished room. -/
theorem playerReachedTop_spec_witness :
    racingRoomW.playerReachedTop "a" 42000 =
      ({ racingRoomW with
          players := mapAdjust racingRoomW.players "a"
            (fun q => { q with finished := true, finishTime := some 42000 })
          state := RState.finished
          winnerId := some "a" },
       [GEvent.gameOver "a" 1 (some 42000) "reached_top"])
    ∧ (racingRoomW.playerReachedTop "a" 42000).1.playerReachedTop "b" 43000 =
        ((racingRoomW.playerReachedTop "a" 42000).1, []) := by
  constructor
  · exact ((playerReachedTop_spec racingRoomW "a" 42000).1 paW rfl rfl).1
  · exact (playerReachedTop_spec
      (racingRoomW.playerReachedTop "a" 42000).1 "b" 43000).2 (Or.inl (by decide))

/-- C8 counterexample: on an empty room, `removePlayer` for an unknown
connection id hits the early `return false` although the players map
holds zero players after the call — so the result is not `true` exactly
when the map is empty afterwards. -/
theorem removePlayer_return_cx :
    ((GameRoom.new "r").removePlayer "x").2.2 = false
    ∧ ((GameRoom.new "r").removePlayer "x").1.players.length = 0 := by
  constructor <;> rfl

/-- C8 amended: the boolean returned by `removePlayer` is true exactly
when the connection id had a Player Record and the players map is empty
after the call; when the record is absent the call returns false
regardless of occupancy. -/
theorem removePlayer_return_spec (r : GameRoom) (cid : String) :
    (r.removePlayer cid).2.2 =
      ((mapGet r.players cid).isSome && (r.removePlayer cid).1.players.isEmpty) := by
  cases h : mapGet r.players cid with
  | none => simp [GameRoom.removePlayer, h]
  | some p => simp [GameRoom.removePlayer, h]

/-- C9: a record created by `addPlayer` carries the supplied skin, and
the canonical default skin `"player"` when the joiner supplies none;
`updatePlayerSkin` overwrites the skin in any room state and broadcasts
`playerSkinChanged`. -/
theorem skin_default_and_update_spec (r anyR : GameRoom)
    (sock sid newSkin skin : String) (n : Nat) :
    (GamePlayer.make sock n skin).skinId = skin
    ∧ defaultSkin = "player"
    ∧ mapGet (r.addPlayerNoSkin sock).1.players sock =
        some (GamePlayer.make sock (r.players.length + 1) defaultSkin)
    ∧ (∀ p, mapGet anyR.players sid = some p →
        anyR.updatePlayerSkin sid newSkin =
          ({ anyR with
              players := mapAdjust anyR.players sid (fun q => { q with skinId := newSkin }) },
           [GEvent.playerSkinChanged sid newSkin])
        ∧ mapGet (anyR.updatePlayerSkin sid newSkin).1.players sid =
            some { p with skinId := newSkin }) := by
  refine ⟨rfl, rfl, ?_, ?_⟩
  · unfold GameRoom.addPlayerNoSkin GameRoom.addPlayer GameRoom.startCountdown
    by_cases h2 :
        (mapSet r.players sock
          (GamePlayer.make sock (r.players.length + 1) defaultSkin)).length = 2 <;>
      simp [h2, mapGet_set_self]
  · intro p hget
    constructor
    · simp [GameRoom.updatePlayerSkin, hget]
    · simp [GameRoom.updatePlayerSkin, hget, mapGet_adjust_self]

/-- Witness for `skin_default_and_update_spec` at concrete inputs. -/
theorem skin_default_and_update_spec_witness :
    mapGet ((GameRoom.new "w").addPlayerNoSkin "a").1.players "a" =
      some (GamePlayer.make "a" 1 defaultSkin)
    ∧ mapGet (racingRoomW.updatePlayerSkin "a" "ninja").1.players "a" =
        some { paW with skinId := "ninja" } := by
  have h := skin_default_and_update_spec (GameRoom.new "w") racingRoomW "a" "a" "ninja" "s" 1
  exact ⟨h.2.2.1, (h.2.2.2 paW rfl).2⟩

/-- C10: a freshly constructed record has no `lastHitTime`, the cooldown
test on the absent value is false for every current time (in JavaScript
`now - undefined` is `NaN` and `NaN < 500` is false), so the first
overlapping attack on a never-hit victim always registers its
knockback / playerHit pair, whichever of the two players joined
first. -/
theorem first_hit_registers_spec (sock skin : String) (n now : Nat)
    (r : GameRoom) (aid vid : String) (pa pv : GamePlayer) (ax ay dx dy : Rat)
    (hp : r.players = [(aid, pa), (vid, pv)] ∨ r.players = [(vid, pv), (aid, pa)])
    (hne : vid ≠ aid)
    (hs : r.state = RState.racing)
    (hfresh : pv.lastHitTime = none)
    (hhit : hitTest (if dx = 0 then ax else ax + dx * ATTACK_OFFSET)
                    (if dx = 0 then ay + dy * ATTACK_OFFSET else ay) pv = true) :
    (GamePlayer.make sock n skin).lastHitTime = none
    ∧ withinCooldown pv.lastHitTime now = false
    ∧ (r.handleAttack aid ax ay dx dy now).2 =
        [GEvent.knockback vid (knockbackVec pa pv dx dy).1 (knockbackVec pa pv dx dy).2 aid,
         GEvent.playerHit pv.id aid dx dy]
    ∧ mapGet (r.handleAttack aid ax ay dx dy now).1.players vid =
        some { pv with lastHitTime := some now } := by
  have hcool : withinCooldown pv.lastHitTime now = false := by rw [hfresh]; rfl
  have hna : aid ≠ vid := fun hh => hne hh.symm
  rcases hp with hp | hp
  · have h := handleAttack_two_hit r aid vid pa pv ax ay dx dy now hp hne hs hcool hhit
    refine ⟨rfl, hcool, by rw [h], ?_⟩
    rw [h]
    simp [mapGet, hna]
  · have h := handleAttack_two_hit_vfirst r aid vid pa pv ax ay dx dy now hp hne hs hcool hhit
    refine ⟨rfl, hcool, by rw [h], ?_⟩
    rw [h]
    simp [mapGet]

/-- A concrete racing room listing the victim first: `pbW` joined before
`paW`, so an attack by `paW` walks the victim's map entry before its
own. -/
def racingRoomV : GameRoom :=
  { id := "w2"
    players := [("b", pbW), ("a", paW)]
    state := RState.racing
    countdownInterval := none
    winnerId := none }

/-- Witness for `first_hit_registers_spec` at a concrete racing room
with a never-hit victim heading the map (attacker joined second). -/
theorem first_hit_registers_spec_witness :
    withinCooldown pbW.lastHitTime 1000 = false
    ∧ (racingRoomV.handleAttack "a" 1 0 1 0 1000).2 =
        [GEvent.knockback "b" (knockbackVec paW pbW 1 0).1 (knockbackVec paW pbW 1 0).2 "a",
         GEvent.playerHit pbW.id "a" 1 0] := by
  have h := first_hit_registers_spec "s" "k" 1 1000 racingRoomV "a" "b" paW pbW 1 0 1 0
    (Or.inr rfl) (by decide) rfl rfl
    (by norm_num [hitTest, pbW, GamePlayer.make, ATTACK_OFFSET, ATTACK_WIDTH, ATTACK_HEIGHT])
  exact ⟨h.2.1, h.2.2.1⟩

/-- C6: for every registered hit, the knockback vector follows the
direction cases of the source — horizontal: `(direction.x * KNOCKBACK_X,
KNOCKBACK_Y)`; vertical-up: strong upward force and half horizontal
force away from the attacker's side; vertical-down: downward half force
and the same horizontal push — where the side sign is `+1` when the
victim's stored x exceeds the attacker's stored x and `-1` otherwise;
the `knockback` event is unicast to the victim while `playerHit` with
attacker id, victim id and direction is broadcast to the room.  The
two-player map may list the attacker or the victim first (join
order). -/
theorem knockback_vector_spec (r : GameRoom) (aid vid : String) (pa pv : GamePlayer)
    (ax ay dx dy : Rat) (now : Nat)
    (hp : r.players = [(aid, pa), (vid, pv)] ∨ r.players = [(vid, pv), (aid, pa)])
    (hne : vid ≠ aid)
    (hs : r.state = RState.racing)
    (hcool : withinCooldown pv.lastHitTime now = false)
    (hhit : hitTest (if dx = 0 then ax else ax + dx * ATTACK_OFFSET)
                    (if dx = 0 then ay + dy * ATTACK_OFFSET else ay) pv = true) :
    (r.handleAttack aid ax ay dx dy now).2 =
      [GEvent.knockback vid (knockbackVec pa pv dx dy).1 (knockbackVec pa pv dx dy).2 aid,
       GEvent.playerHit pv.id aid dx dy]
    ∧ (dx ≠ 0 → knockbackVec pa pv dx dy = (dx * KNOCKBACK_X, KNOCKBACK_Y))
    ∧ (dx = 0 → 0 < dy →
        knockbackVec pa pv dx dy =
          ((if pv.x > pa.x then 1 else -1) * (KNOCKBACK_X * 0.5), KNOCKBACK_Y * 1.5))
    ∧ (dx = 0 → dy ≤ 0 →
        knockbackVec pa pv dx dy =
          ((if pv.x > pa.x then 1 else -1) * (KNOCKBACK_X * 0.5), -KNOCKBACK_Y * 0.5)) := by
  refine ⟨?_, ?_, ?_, ?_⟩
  · rcases hp with hp | hp
    · rw [handleAttack_two_hit r aid vid pa pv ax ay dx dy now hp hne hs hcool hhit]
    · rw [handleAttack_two_hit_vfirst r aid vid pa pv ax ay dx dy now hp hne hs hcool hhit]
  · intro h
    simp [knockbackVec, h]
  · intro h hdy
    simp [knockbackVec, h, hdy]
  · intro h hdy
    simp [knockbackVec, h, not_lt.mpr hdy]

/-- Witness for `knockback_vector_spec` at a concrete horizontal
attack. -/
theorem knockback_vector_spec_witness :
    (racingRoomW.handleAttack "a" 1 0 1 0 1000).2 =
      [GEvent.knockback "b" (knockbackVec paW pbW 1 0).1 (knockbackVec paW pbW 1 0).2 "a",
       GEvent.playerHit pbW.id "a" 1 0]
    ∧ knockbackVec paW pbW 1 0 = (1 * KNOCKBACK_X, KNOCKBACK_Y) := by
  have h := knockback_vector_spec racingRoomW "a" "b" paW pbW 1 0 1 0 1000
    (Or.inl rfl) (by decide) rfl rfl
    (by norm_num [hitTest, pbW, GamePlayer.make, ATTACK_OFFSET, ATTACK_WIDTH, ATTACK_HEIGHT])
  exact ⟨h.1, h.2.1 (by decide)⟩

/-- C7: no `handleAttack` call ever emits a knockback targeting the
attacker or a playerHit naming the attacker as the hit player — the
attacker can never hit themselves (`notSelf` holds for every emitted
event), given the construction invariant that each record's id is its
map key. -/
theorem attack_self_immunity (r : GameRoom) (aid : String) (ax ay dx dy : Rat)
    (now : Nat) (hwf : ∀ kv ∈ r.players, (kv.2).id = kv.1) :
    ∀ e ∈ (r.handleAttack aid ax ay dx dy now).2, notSelf aid e := by
  intro e he
  unfold GameRoom.handleAttack at he
  by_cases hs : r.state = RState.racing
  · rw [if_pos hs] at he
    cases hget : mapGet r.players aid with
    | none => rw [hget] at he; simp at he
    | some attacker =>
      rw [hget] at he
      exact attackStep_foldl_noself aid attacker _ _ _ _ now r.players hwf
        ([], []) (by simp) e he
  · rw [if_neg hs] at he
    simp at he

/-- Witness for `attack_self_immunity` at a concrete registered hit. -/
theorem attack_self_immunity_witness :
    notSelf "a" (GEvent.knockback "b" 12 15 "a") := by
  exact attack_self_immunity racingRoomW "a" 1 0 1 0 1000 (by decide)
    (GEvent.knockback "b" 12 15 "a")
    (by norm_num [GameRoom.handleAttack, racingRoomW, mapGet, attackStep, withinCooldown,
      hitTest, knockbackVec, paW, pbW, GamePlayer.make, ATTACK_OFFSET, ATTACK_WIDTH,
      ATTACK_HEIGHT, KNOCKBACK_X, KNOCKBACK_Y]
      ; decide)

/-- Replacing the victim's `lastHitTime` does not change the hitbox
test, which reads only the stored position. -/
theorem hitTest_lastHit (cx cy : Rat) (p : GamePlayer) (t : Option Nat) :
    hitTest cx cy { p with lastHitTime := t } = hitTest cx cy p := rfl

/-- Replacing the victim's `lastHitTime` does not change the knockback
vector, which reads only the stored positions. -/
theorem knockbackVec_lastHit (pa pv : GamePlayer) (dx dy : Rat) (t : Option Nat) :
    knockbackVec pa { pv with lastHitTime := t } dx dy = knockbackVec pa pv dx dy := rfl

/-- C5: with a fixed victim in a racing room (either join order), an
attack landing at `t1` produces the knockback / playerHit pair and
stamps the victim's `lastHitTime := t1` while leaving the attacker's
record untouched; a second overlapping attack at `t2` with
`t2 - t1 < HIT_COOLDOWN` produces no events and changes nothing; a third
overlapping attack at `t3` with `t3 - t1 ≥ HIT_COOLDOWN` produces a new
pair and restamps the cooldown. -/
theorem attack_cooldown_spec (r : GameRoom) (aid vid : String) (pa pv : GamePlayer)
    (x1 y1 d1x d1y x2 y2 d2x d2y x3 y3 d3x d3y : Rat) (t1 t2 t3 : Nat)
    (hp : r.players = [(aid, pa), (vid, pv)] ∨ r.players = [(vid, pv), (aid, pa)])
    (hne : vid ≠ aid)
    (hs : r.state = RState.racing)
    (hc1 : withinCooldown pv.lastHitTime t1 = false)
    (hh1 : hitTest (if d1x = 0 then x1 else x1 + d1x * ATTACK_OFFSET)
                   (if d1x = 0 then y1 + d1y * ATTACK_OFFSET else y1) pv = true)
    (hh2 : hitTest (if d2x = 0 then x2 else x2 + d2x * ATTACK_OFFSET)
                   (if d2x = 0 then y2 + d2y * ATTACK_OFFSET else y2) pv = true)
    (hh3 : hitTest (if d3x = 0 then x3 else x3 + d3x * ATTACK_OFFSET)
                   (if d3x = 0 then y3 + d3y * ATTACK_OFFSET else y3) pv = true)
    (ht2 : (t2 : Int) - (t1 : Int) < HIT_COOLDOWN)
    (ht3 : HIT_COOLDOWN ≤ (t3 : Int) - (t1 : Int)) :
    (r.handleAttack aid x1 y1 d1x d1y t1).2 =
      [GEvent.knockback vid (knockbackVec pa pv d1x d1y).1 (knockbackVec pa pv d1x d1y).2 aid,
       GEvent.playerHit pv.id aid d1x d1y]
    ∧ mapGet (r.handleAttack aid x1 y1 d1x d1y t1).1.players vid =
        some { pv with lastHitTime := some t1 }
    ∧ mapGet (r.handleAttack aid x1 y1 d1x d1y t1).1.players aid = some pa
    ∧ (r.handleAttack aid x1 y1 d1x d1y t1).1.handleAttack aid x2 y2 d2x d2y t2 =
        ((r.handleAttack aid x1 y1 d1x d1y t1).1, [])
    ∧ ((r.handleAttack aid x1 y1 d1x d1y t1).1.handleAttack aid x3 y3 d3x d3y t3).2 =
        [GEvent.knockback vid (knockbackVec pa pv d3x d3y).1 (knockbackVec pa pv d3x d3y).2 aid,
         GEvent.playerHit pv.id aid d3x d3y]
    ∧ mapGet ((r.handleAttack aid x1 y1 d1x d1y t1).1.handleAttack
          aid x3 y3 d3x d3y t3).1.players vid =
        some { pv with lastHitTime := some t3 } := by
  have hna : aid ≠ vid := fun hh => hne hh.symm
  have hcool2 : withinCooldown ({ pv with lastHitTime := some t1 }).lastHitTime t2 = true := by
    simp [withinCooldown]; exact ht2
  have hcool3 : withinCooldown ({ pv with lastHitTime := some t1 }).lastHitTime t3 = false := by
    simp [withinCooldown]; exact ht3
  have hh3' : hitTest (if d3x = 0 then x3 else x3 + d3x * ATTACK_OFFSET)
      (if d3x = 0 then y3 + d3y * ATTACK_OFFSET else y3)
      { pv with lastHitTime := some t1 } = true := by
    rw [hitTest_lastHit]; exact hh3
  rcases hp with hp | hp
  · have hA1 := handleAttack_two_hit r aid vid pa pv x1 y1 d1x d1y t1 hp hne hs hc1 hh1
    have hp1 : (r.handleAttack aid x1 y1 d1x d1y t1).1.players =
        [(aid, pa), (vid, { pv with lastHitTime := some t1 })] := by rw [hA1]
    have hs1 : (r.handleAttack aid x1 y1 d1x d1y t1).1.state = RState.racing := by
      rw [hA1]; exact hs
    have hA2 := handleAttack_two_cooldown (r.handleAttack aid x1 y1 d1x d1y t1).1
      aid vid pa { pv with lastHitTime := some t1 } x2 y2 d2x d2y t2 hp1 hne hs1 hcool2
    have hA3 := handleAttack_two_hit (r.handleAttack aid x1 y1 d1x d1y t1).1
      aid vid pa { pv with lastHitTime := some t1 } x3 y3 d3x d3y t3 hp1 hne hs1 hcool3 hh3'
    refine ⟨by rw [hA1], ?_, ?_, hA2, ?_, ?_⟩
    · rw [hp1]; simp [mapGet, hna]
    · rw [hp1]; simp [mapGet]
    · rw [hA3, knockbackVec_lastHit]
    · rw [hA3]; simp [mapGet, hna]
  · have hA1 := handleAttack_two_hit_vfirst r aid vid pa pv x1 y1 d1x d1y t1 hp hne hs hc1 hh1
    have hp1 : (r.handleAttack aid x1 y1 d1x d1y t1).1.players =
        [(vid, { pv with lastHitTime := some t1 }), (aid, pa)] := by rw [hA1]
    have hs1 : (r.handleAttack aid x1 y1 d1x d1y t1).1.state = RState.racing := by
      rw [hA1]; exact hs
    have hA2 := handleAttack_two_cooldown_vfirst (r.handleAttack aid x1 y1 d1x d1y t1).1
      aid vid pa { pv with lastHitTime := some t1 } x2 y2 d2x d2y t2 hp1 hne hs1 hcool2
    have hA3 := handleAttack_two_hit_vfirst (r.handleAttack aid x1 y1 d1x d1y t1).1
      aid vid pa { pv with lastHitTime := some t1 } x3 y3 d3x d3y t3 hp1 hne hs1 hcool3 hh3'
    refine ⟨by rw [hA1], ?_, ?_, hA2, ?_, ?_⟩
    · rw [hp1]; simp [mapGet]
    · rw [hp1]; simp [mapGet, hne]
    · rw [hA3, knockbackVec_lastHit]
    · rw [hA3]; simp [mapGet]

/-- Witness for `attack_cooldown_spec`: a hit at t = 1000, a suppressed
hit at t = 1400 and a fresh hit at t = 1500. -/
theorem attack_cooldown_spec_witness :
    (racingRoomW.handleAttack "a" 1 0 1 0 1000).2 =
      [GEvent.knockback "b" (knockbackVec paW pbW 1 0).1 (knockbackVec paW pbW 1 0).2 "a",
       GEvent.playerHit pbW.id "a" 1 0]
    ∧ (racingRoomW.handleAttack "a" 1 0 1 0 1000).1.handleAttack "a" 1 0 1 0 1400 =
        ((racingRoomW.handleAttack "a" 1 0 1 0 1000).1, [])
    ∧ ((racingRoomW.handleAttack "a" 1 0 1 0 1000).1.handleAttack "a" 1 0 1 0 1500).2 =
        [GEvent.knockback "b" (knockbackVec paW pbW 1 0).1 (knockbackVec paW pbW 1 0).2 "a",
         GEvent.playerHit pbW.id "a" 1 0] := by
  have hh : hitTest (if (1 : Rat) = 0 then 1 else 1 + 1 * ATTACK_OFFSET)
      (if (1 : Rat) = 0 then 0 + 0 * ATTACK_OFFSET else 0) pbW = true := by
    norm_num [hitTest, pbW, GamePlayer.make, ATTACK_OFFSET, ATTACK_WIDTH, ATTACK_HEIGHT]
  have h := attack_cooldown_spec racingRoomW "a" "b" paW pbW
    1 0 1 0 1 0 1 0 1 0 1 0 1000 1400 1500
    (Or.inl rfl) (by decide) rfl rfl hh hh hh (by decide) (by decide)
  exact ⟨h.1, h.2.2.2.1, h.2.2.2.2.1⟩

theorem countRaceStart_append (a b : List GEvent) :
    countRaceStart (a ++ b) = countRaceStart a + countRaceStart b := by
  simp [countRaceStart, List.countP_append]

/-- Once a room is finished with its countdown interval cleared, no
gateway-routed operation emits a `raceStart`, and the room stays
finished with the interval cleared. -/
theorem stepG_finished_noRaceStart (r : GameRoom) (op : Op)
    (h1 : r.state = RState.finished) (h2 : r.countdownInterval = none) :
    countRaceStart (stepG r op).2 = 0
    ∧ (stepG r op).1.state = RState.finished
    ∧ (stepG r op).1.countdownInterval = none := by
  cases op with
  | join sock skin =>
    simp [stepG, gatewayOk, GameRoom.isAvailable, h1, h2, countRaceStart]
  | leave sid =>
    cases hget : mapGet r.players sid with
    | none =>
      simp [stepG, gatewayOk, applyOp, GameRoom.removePlayer, hget, countRaceStart, h1, h2]
    | some p =>
      simp [stepG, gatewayOk, applyOp, GameRoom.removePlayer, hget, countRaceStart, h1, h2]
  | move sid px py =>
    cases hget : mapGet r.players sid with
    | none =>
      simp [stepG, gatewayOk, applyOp, GameRoom.updatePosition, hget, countRaceStart, h1, h2]
    | some p =>
      simp [stepG, gatewayOk, applyOp, GameRoom.updatePosition, hget, countRaceStart, h1, h2]
  | top sid time =>
    simp [stepG, gatewayOk, applyOp, GameRoom.playerReachedTop, h1, h2, countRaceStart]
  | attack sid ax ay dx dy now =>
    simp [stepG, gatewayOk, applyOp, GameRoom.handleAttack, h1, h2, countRaceStart]
  | setSkin sid skin =>
    cases hget : mapGet r.players sid with
    | none =>
      simp [stepG, gatewayOk, applyOp, GameRoom.updatePlayerSkin, hget, countRaceStart, h1, h2]
    | some p =>
      simp [stepG, gatewayOk, applyOp, GameRoom.updatePlayerSkin, hget, countRaceStart, h1, h2]
  | tick now =>
    simp [stepG, gatewayOk, applyOp, GameRoom.tick, h1, h2, countRaceStart]

/-- Iterating `stepG_finished_noRaceStart`: a finished room with a
cleared interval never emits a `raceStart` under any sequence of
gateway-driven operations. -/
theorem runG_finished_noRaceStart (ops : List Op) :
    ∀ r : GameRoom, r.state = RState.finished → r.countdownInterval = none →
      countRaceStart (runG r ops).2 = 0 := by
  induction ops with
  | nil =>
    intro r h1 h2
    simp [runG, countRaceStart]
  | cons op rest ih =>
    intro r h1 h2
    have h := stepG_finished_noRaceStart r op h1 h2
    show countRaceStart ((stepG r op).2 ++ (runG (stepG r op).1 rest).2) = 0
    rw [countRaceStart_append, h.1, ih (stepG r op).1 h.2.1 h.2.2]

/-- C3: once a join brings a room to two players the room enters
countdown and — absent a removal — the interval callback emits countdown
3, 2, 1 (one per scheduled firing) followed by exactly one `raceStart`
carrying the server timestamp, after which the room races and the
interval is dead; if a removal happens first, the room emits exactly one
`gameOver` with reason `opponent_disconnected`, and no `raceStart` is
ever emitted by that room under any further gateway-driven operations. -/
theorem countdown_sequence_spec (r : GameRoom) (a sock skin : String) (pa : GamePlayer)
    (n1 n2 ts m : Nat)
    (hp : r.players = [(a, pa)]) (hs : r.state = RState.waiting) (hne : sock ≠ a) :
    ((r.addPlayer sock skin).2 = [GEvent.playerJoined sock, GEvent.countdown 3]
     ∧ (r.addPlayer sock skin).1.state = RState.countdown
     ∧ ((r.addPlayer sock skin).1.tick n1).2 = [GEvent.countdown 2]
     ∧ (((r.addPlayer sock skin).1.tick n1).1.tick n2).2 = [GEvent.countdown 1]
     ∧ ((((r.addPlayer sock skin).1.tick n1).1.tick n2).1.tick ts).2 = [GEvent.raceStart ts]
     ∧ ((((r.addPlayer sock skin).1.tick n1).1.tick n2).1.tick ts).1.state = RState.racing
     ∧ ((((r.addPlayer sock skin).1.tick n1).1.tick n2).1.tick ts).1.tick m
         = (((((r.addPlayer sock skin).1.tick n1).1.tick n2).1.tick ts).1, [])
     ∧ countRaceStart ((r.addPlayer sock skin).2 ++ (((r.addPlayer sock skin).1.tick n1).2
         ++ (((((r.addPlayer sock skin).1.tick n1).1.tick n2).2)
         ++ (((((r.addPlayer sock skin).1.tick n1).1.tick n2).1.tick ts).2)))) = 1)
    ∧ (∀ (r' : GameRoom) (u v cid : String) (pu pv : GamePlayer) (ops : List Op),
        r'.players = [(u, pu), (v, pv)] → u ≠ v → r'.state = RState.countdown →
        (cid = u ∨ cid = v) →
        (r'.removePlayer cid).2.1 =
          [GEvent.gameOver (if cid = u then pv else pu).id
             (if cid = u then pv else pu).playerNumber none "opponent_disconnected",
           GEvent.playerLeft cid]
        ∧ countGameOver (r'.removePlayer cid).2.1 = 1
        ∧ countRaceStart ((r'.removePlayer cid).2.1
            ++ (runG (r'.removePlayer cid).1 ops).2) = 0) := by
  constructor
  · have ha : a ≠ sock := fun h => hne h.symm
    have hadd : r.addPlayer sock skin =
        ({ r with
            players := [(a, pa), (sock, GamePlayer.make sock 2 skin)]
            state := RState.countdown
            countdownInterval := some 3 },
         [GEvent.playerJoined sock, GEvent.countdown 3]) := by
      simp [GameRoom.addPlayer, GameRoom.startCountdown, mapSet, hp, ha]
    rw [hadd]
    simp [GameRoom.tick, countRaceStart]
  · intro r' u v cid pu pv ops hp' huv hcd hcid
    have hvu : v ≠ u := fun h => huv h.symm
    rcases hcid with rfl | rfl
    · have hrm : r'.removePlayer cid =
          ({ r' with
              players := [(v, pv)]
              state := RState.finished
              countdownInterval := none
              winnerId := some pv.id },
           [GEvent.gameOver pv.id pv.playerNumber none "opponent_disconnected",
            GEvent.playerLeft cid], false) := by
        simp [GameRoom.removePlayer, mapGet, mapDelete, hp', hvu, huv, hcd]
      rw [hrm]
      refine ⟨by simp, by simp [countGameOver], ?_⟩
      rw [countRaceStart_append, runG_finished_noRaceStart ops _ rfl rfl]
      simp [countRaceStart]
    · have hrm : r'.removePlayer cid =
          ({ r' with
              players := [(u, pu)]
              state := RState.finished
              countdownInterval := none
              winnerId := some pu.id },
           [GEvent.gameOver pu.id pu.playerNumber none "opponent_disconnected",
            GEvent.playerLeft cid], false) := by
        simp [GameRoom.removePlayer, mapGet, mapDelete, hp', hvu, huv, hcd]
      rw [hrm]
      refine ⟨by simp [hvu], by simp [countGameOver], ?_⟩
      rw [countRaceStart_append, runG_finished_noRaceStart ops _ rfl rfl]
      simp [countRaceStart]

/-- A concrete one-player waiting room used to witness the countdown
sequence. -/
def waitingRoomW : GameRoom :=
  { id := "w1"
    players := [("a", paW)]
    state := RState.waiting
    countdownInterval := none
    winnerId := none }

/-- Witness for `countdown_sequence_spec` at a concrete room, with a
concrete interrupt and a concrete follow-up operation list. -/
theorem countdown_sequence_spec_witness :
    (waitingRoomW.addPlayer "b" "player").2 =
      [GEvent.playerJoined "b", GEvent.countdown 3]
    ∧ countRaceStart
        (((waitingRoomW.addPlayer "b" "player").1.removePlayer "a").2.1 ++
          (runG ((waitingRoomW.addPlayer "b" "player").1.removePlayer "a").1
            [Op.tick 99, Op.join "c" "s"]).2) = 0 := by
  have h := countdown_sequence_spec waitingRoomW "a" "b" "player" paW 1 2 3 4
    rfl rfl (by decide)
  have h2 := h.2 (waitingRoomW.addPlayer "b" "player").1 "a" "b" "a" paW
    (GamePlayer.make "b" 2 "player") [Op.tick 99, Op.join "c" "s"]
    (by simp [waitingRoomW, GameRoom.addPlayer, GameRoom.startCountdown, mapSet, paW,
      GamePlayer.make])
    (by decide) (by simp [waitingRoomW, GameRoom.addPlayer, GameRoom.startCountdown, mapSet])
    (Or.inl rfl)
  exact ⟨h.1.1, h2.2.2⟩

theorem removePlayer_length_le (r : GameRoom) (sid : String) :
    (r.removePlayer sid).1.players.length ≤ r.players.length := by
  unfold GameRoom.removePlayer
  cases hget : mapGet r.players sid with
  | none => simp
  | some p =>
    by_cases hrc : r.state = RState.racing ∨ r.state = RState.countdown
    · cases hhead : (mapDelete r.players sid).head? with
      | none =>
        have hnw : ¬ (r.state = RState.waiting) := by
          rcases hrc with h | h <;> simp [h]
        simp [hget, hrc, hhead, hnw]
        exact mapDelete_length_le _ _
      | some kv =>
        simp [hget, hrc, hhead]
        exact mapDelete_length_le _ _
    · by_cases hw : r.state = RState.waiting
      · simp [hget, hrc, hw]
        exact mapDelete_length_le _ _
      · simp [hget, hrc, hw]
        exact mapDelete_length_le _ _

theorem handleAttack_length (r : GameRoom) (aid : String) (ax ay dx dy : Rat)
    (now : Nat) :
    (r.handleAttack aid ax ay dx dy now).1.players.length = r.players.length := by
  unfold GameRoom.handleAttack
  by_cases hs : r.state = RState.racing
  · rw [if_pos hs]
    cases hget : mapGet r.players aid with
    | none => simp
    | some att =>
      simpa using attackStep_foldl_length aid att _ _ _ _ now r.players ([], [])
  · rw [if_neg hs]

theorem updatePosition_length (r : GameRoom) (sid : String) (px py : Rat) :
    (r.updatePosition sid px py).1.players.length = r.players.length := by
  unfold GameRoom.updatePosition
  cases hget : mapGet r.players sid <;> simp [mapAdjust_length]

theorem playerReachedTop_length (r : GameRoom) (sid : String) (t : Nat) :
    (r.playerReachedTop sid t).1.players.length = r.players.length := by
  unfold GameRoom.playerReachedTop
  by_cases hs : r.state = RState.racing
  · rw [if_pos hs]
    cases hget : mapGet r.players sid <;> simp [mapAdjust_length]
  · rw [if_neg hs]

theorem updatePlayerSkin_length (r : GameRoom) (sid skin : String) :
    (r.updatePlayerSkin sid skin).1.players.length = r.players.length := by
  unfold GameRoom.updatePlayerSkin
  cases hget : mapGet r.players sid <;> simp [mapAdjust_length]

theorem tick_players (r : GameRoom) (now : Nat) :
    (r.tick now).1.players = r.players := by
  unfold GameRoom.tick
  cases hi : r.countdownInterval with
  | none => rfl
  | some c =>
    by_cases hc : 0 < c - 1 <;> simp [hc]

/-- Every gateway step keeps the room at or below two players: a join is
routed here only when the room is available (waiting and not full). -/
theorem stepG_length_le (r : GameRoom) (op : Op) (h : r.players.length ≤ 2) :
    (stepG r op).1.players.length ≤ 2 := by
  cases op with
  | join sock skin =>
    by_cases hg : gatewayOk r (Op.join sock skin) = true
    · have hlen : r.players.length ≤ 1 := by
        simp [gatewayOk, GameRoom.isAvailable, GameRoom.isFull] at hg
        omega
      have hle := mapSet_length_le r.players sock
        (GamePlayer.make sock (r.players.length + 1) skin)
      simp only [stepG, hg, if_true, applyOp, GameRoom.addPlayer, GameRoom.startCountdown]
      by_cases h2 : (mapSet r.players sock
          (GamePlayer.make sock (r.players.length + 1) skin)).length = 2
      · simp [h2]
      · simp [h2]; omega
    · simp only [stepG, applyOp]
      rw [if_neg hg]
      exact h
  | leave sid =>
    have hle := removePlayer_length_le r sid
    simp only [stepG, gatewayOk, if_true, applyOp]
    omega
  | move sid px py =>
    simp only [stepG, gatewayOk, if_true, applyOp]
    rw [updatePosition_length]
    exact h
  | top sid time =>
    simp only [stepG, gatewayOk, if_true, applyOp]
    rw [playerReachedTop_length]
    exact h
  | attack sid ax ay dx dy now =>
    simp only [stepG, gatewayOk, if_true, applyOp]
    rw [handleAttack_length]
    exact h
  | setSkin sid skin =>
    simp only [stepG, gatewayOk, if_true, applyOp]
    rw [updatePlayerSkin_length]
    exact h
  | tick now =>
    simp only [stepG, gatewayOk, if_true, applyOp]
    rw [tick_players]
    exact h

theorem runG_length_le (ops : List Op) :
    ∀ r : GameRoom, r.players.length ≤ 2 → (runG r ops).1.players.length ≤ 2 := by
  induction ops with
  | nil => intro r h; simpa [runG] using h
  | cons op rest ih =>
    intro r h
    show (runG (stepG r op).1 rest).1.players.length ≤ 2
    exact ih _ (stepG_length_le r op h)

/-- C4: along every gateway-driven run from a fresh room the player map
never exceeds two entries, and a join aimed at a full or non-waiting
room is never admitted by that room (the gateway routes it elsewhere). -/
theorem capacity_invariant (rid : String) (ops : List Op) (r : GameRoom)
    (sock skin : String) :
    (runG (GameRoom.new rid) ops).1.players.length ≤ 2
    ∧ ((r.players.length = 2 ∨ r.state ≠ RState.waiting) →
        stepG r (Op.join sock skin) = (r, [])) := by
  constructor
  · exact runG_length_le ops _ (by simp [GameRoom.new])
  · intro h
    have hg : gatewayOk r (Op.join sock skin) = false := by
      rcases h with h | h <;>
        simp [gatewayOk, GameRoom.isAvailable, GameRoom.isFull, h]
    simp [stepG, hg]

/-- Witness for `capacity_invariant`: three concurrent-style joins and a
join against the full racing room. -/
theorem capacity_invariant_witness :
    (runG (GameRoom.new "r")
      [Op.join "a" "player", Op.join "b" "player", Op.join "c" "player"]).1.players.length ≤ 2
    ∧ stepG racingRoomW (Op.join "c" "player") = (racingRoomW, []) := by
  have h := capacity_invariant "r"
    [Op.join "a" "player", Op.join "b" "player", Op.join "c" "player"]
    racingRoomW "c" "player"
  exact ⟨h.1, h.2 (Or.inl rfl)⟩
